import Mathlib

/-!
Verification of the text-processing core of the WEBSCRAPER repository.

The development shallowly embeds the pure text pipeline of
`src/scraper.py`, `src/processor.py` and `src/processor_llm.py` over
`List Char` and `String`.  External NLTK components (word tokenizer,
sentence tokenizer, part-of-speech tagger, lemmatizer, stopword set) are
modelled as function parameters, so theorems about the surrounding code
hold for every possible behaviour of those components.  Machine strings
are ASCII in all inputs of interest; character predicates (whitespace,
word characters, alphanumeric) are the ASCII restrictions of the Python
ones.
-/

/-- Whitespace characters recognised by the Python `str.split` and the
regular-expression class `\s` (ASCII part): space, tab, newline, carriage
return, vertical tab, form feed. -/
def pyIsSpace (c : Char) : Bool :=
  c == ' ' || c == '\t' || c == '\n' || c == '\r' || c == Char.ofNat 11 || c == Char.ofNat 12

/-- Maps every whitespace character to a plain space and leaves the rest
unchanged.  Helper for the embedding of Python `(' ').join(s.split())`. -/
def toSp (c : Char) : Char :=
  if pyIsSpace c then ' ' else c

/-- ASCII lowercasing of a character list, the embedding of Python
`str.lower` on ASCII text. -/
def lowerS (s : List Char) : List Char :=
  s.map Char.toLower

/-- ASCII lowercasing on `String`. -/
def strLower (s : String) : String :=
  String.mk (lowerS s.data)

/-- Word characters of the regular-expression class `\w` (ASCII part):
letters, digits and underscore. -/
def isWordChar (c : Char) : Bool :=
  c.isAlphanum || c == '_'

/-- Substring test on character lists, the embedding of the Python
operator `in` on strings. -/
def pyInL (needle hay : List Char) : Bool :=
  hay.tails.any (fun t => needle.isPrefixOf t)

/-- Substring test on `String`, the embedding of the Python operator
`in` on strings. -/
def pyInS (needle hay : String) : Bool :=
  pyInL needle.data hay.data

/-- Emission step of the run-collapsing scanner: a pending run of `n`
copies of `c` is emitted as `m` copies when `n` reached the threshold
`k`, and verbatim otherwise. -/
def crEmit (c : Char) (k m n : Nat) : List Char :=
  List.replicate (if k ≤ n then m else n) c

/-- Scanner that replaces every maximal run of at least `k` copies of the
character `c` by exactly `m` copies; `n` counts the copies of `c` already
consumed.  Embeds the substitutions `re.sub` of a pattern `c{k,}` by `m`
copies of `c` used in `WebScraper._basic_text_cleaning`, and with
`c = ' '`, `k = 2`, `m = 1` the run-collapsing part of
`(' ').join(s.split())`. -/
def crGo (c : Char) (k m : Nat) : List Char → Nat → List Char
  | [], n => crEmit c k m n
  | x :: xs, n => if x = c then crGo c k m xs (n + 1) else crEmit c k m n ++ x :: crGo c k m xs 0

/-- Replaces every maximal run of at least `k` copies of `c` by `m`
copies of `c`. -/
def collapseRun (c : Char) (k m : Nat) (s : List Char) : List Char :=
  crGo c k m s 0

/-- Removes leading spaces. -/
def trimL (s : List Char) : List Char :=
  s.dropWhile (fun c => c == ' ')

/-- Removes trailing spaces. -/
def trimR : List Char → List Char
  | [] => []
  | x :: xs => if (trimR xs).isEmpty && x == ' ' then [] else x :: trimR xs

/-- Embedding of Python `(' ').join(s.split())`: every whitespace
character becomes a space, runs of spaces collapse to one space, and
leading and trailing spaces are stripped. -/
def pyJoinSplitL (s : List Char) : List Char :=
  trimL (trimR (collapseRun ' ' 2 1 (s.map toSp)))

/-- Fuelled scanner for Python `str.replace`: replaces non-overlapping
occurrences of `old` left to right by `new`.  The fuel is the length of
the scanned text, which suffices because `old` is nonempty in every use
below. -/
def replAux (old new : List Char) : Nat → List Char → List Char
  | _, [] => []
  | 0, t => t
  | fuel + 1, x :: xs =>
    if old.isPrefixOf (x :: xs) then new ++ replAux old new fuel ((x :: xs).drop old.length)
    else x :: replAux old new fuel xs

/-- Embedding of Python `str.replace(old, new)` for nonempty `old`. -/
def pyReplace (old new s : List Char) : List Char :=
  replAux old new s.length s

/-- Apostrophe character, written by code point to keep source clean. -/
def apos : Char := Char.ofNat 39

/-- The literal first argument of the corrupted quote-normalisation line
of `WebScraper._basic_text_cleaning` (`src/scraper.py`, line 147).  The
source bytes are all ASCII: the line reads
`content.replace(<3 quotes>, "<apos>").replace(<3 quotes>, "<apos>")`
where `<3 quotes>` is three ASCII apostrophes in a row, so Python parses
a triple-quoted string literal whose content is the fifteen characters
comma, space, double quote, apostrophe, double quote, closing
parenthesis, dot, r, e, p, l, a, c, e, opening parenthesis, and the
whole line is a single `str.replace` of that literal by an
apostrophe. -/
def mojibakeOld : List Char :=
  [',', ' ', '"', apos, '"', ')', '.', 'r', 'e', 'p', 'l', 'a', 'c', 'e', '(']

/-- Embedding of `WebScraper._basic_text_cleaning` on character lists.
Steps, in source order: whitespace normalisation
`(' ').join(content.split())`; the two no-op replacements of a double
quote by a double quote (line 146, whose curly quotes were lost to
mojibake and are now plain ASCII quotes); the corrupted replacement of
`mojibakeOld` by an apostrophe (line 147); collapsing runs of three or
more dots to three dots; collapsing runs of two or more exclamation
marks to one; collapsing runs of two or more question marks to one. -/
def basicTextCleaningL (s : List Char) : List Char :=
  collapseRun '?' 2 1
    (collapseRun '!' 2 1
      (collapseRun '.' 3 3
        (pyReplace mojibakeOld [apos]
          (pyReplace ['"'] ['"']
            (pyReplace ['"'] ['"']
              (pyJoinSplitL s))))))

/-- Embedding of `WebScraper._basic_text_cleaning` on `String`. -/
def basicTextCleaning (s : String) : String :=
  String.mk (basicTextCleaningL s.data)

/-- Input on which the Text Normalizer is not idempotent: the fifteen
character pattern of `mojibakeOld` wrapped so that removing one
occurrence creates a new one. -/
def cleanFailInput : List Char :=
  [',', ' ', '"'] ++ mojibakeOld ++ ['"', ')', '.', 'r', 'e', 'p', 'l', 'a', 'c', 'e', '(']

/-- Claim C8: the Text Normalizer `_basic_text_cleaning` is NOT
idempotent as implemented.  On `cleanFailInput` one application yields
`mojibakeOld` (the corrupted replacement of line 147 collapses the
wrapped occurrence into a fresh occurrence of the pattern), and a second
application collapses that occurrence to a single apostrophe, so
applying the normalizer twice differs from applying it once.  The claim
is the stated intent (the line is commented as quote normalisation and
its curly-quote arguments were destroyed by mojibake), so this records a
code bug, witnessed here by direct evaluation of the embedding. -/
theorem c8_normalize_not_idempotent :
    basicTextCleaningL cleanFailInput = mojibakeOld ∧
    basicTextCleaningL (basicTextCleaningL cleanFailInput) = [apos] ∧
    basicTextCleaningL (basicTextCleaningL cleanFailInput) ≠
      basicTextCleaningL cleanFailInput := by
  refine ⟨by decide, by decide, by decide⟩

/-- Boundary test for the right end of a keyword occurrence: the match
is followed by the end of the text or by a non-word character.  All
keywords of the sector table start and end with word characters, so the
regular expression `\b<kw>\b` matches exactly under these end tests. -/
def afterBoundaryOK (rest : List Char) : Bool :=
  match rest with
  | [] => true
  | d :: _ => !isWordChar d

/-- Fuelled scanner counting non-overlapping, word-boundary delimited
occurrences of `kw` in the text, left to right, as
`len(re.findall(r'\b' + re.escape(kw) + r'\b', text))` does for keywords
that start and end with word characters.  `pw` records whether the
previously consumed character was a word character. -/
def cbAux (kw : List Char) : Nat → Bool → List Char → Nat
  | 0, _, _ => 0
  | _ + 1, _, [] => 0
  | fuel + 1, pw, c :: rest =>
    if !pw && kw.isPrefixOf (c :: rest) && afterBoundaryOK ((c :: rest).drop kw.length) then
      1 + cbAux kw fuel (isWordChar (kw.getLastD c)) ((c :: rest).drop kw.length)
    else
      cbAux kw fuel (isWordChar c) rest

/-- Number of word-boundary delimited occurrences of `kw` in `t`. -/
def countBounded (kw t : List Char) : Nat :=
  cbAux kw t.length false t

/-- Sector keyword table of `WebScraper.categorize_content`, in the
declared iteration order of the Python dict. -/
def sectorsTable : List (String × List String) :=
  [("e-mobility",
    ["electric vehicle", "ev", "battery", "charging station", "autonomous driving",
     "sustainable mobility", "green energy", "renewable transport", "electric car",
     "lithium-ion", "vehicle electrification", "smart mobility", "e-mobility"]),
   ("manufacturing",
    ["manufacturing", "supply chain", "automation", "industry 4.0", "robotics",
     "production line", "factory automation", "industrial iot", "smart manufacturing",
     "lean manufacturing", "quality control", "production efficiency"]),
   ("politics-governance",
    ["government", "policy", "regulation", "election", "legislation", "parliament",
     "political", "governance", "public sector", "democracy", "constitution",
     "minister", "president", "law", "bill", "senate"]),
   ("artificial intelligence & machine learning",
    ["artificial intelligence", "machine learning", "deep learning", "neural network",
     "data science", "ai model", "computer vision", "natural language processing",
     "predictive analytics", "algorithm", "automation ai"]),
   ("startup & innovation",
    ["startup", "innovation", "venture capital", "tech startup", "business model",
     "entrepreneurship", "funding round", "pitch deck", "scalability", "disruption"])]

/-- Combined text scored by `categorize_content`: lowercased content,
a space, lowercased title. -/
def fullTextOf (content title : String) : List Char :=
  lowerS content.data ++ ' ' :: lowerS title.data

/-- Sector scores of `categorize_content`: for each sector, the sum over
its keywords of the number of word-boundary delimited occurrences in the
combined text. -/
def sectorScores (content title : String) : List (String × Nat) :=
  sectorsTable.map
    (fun p => (p.1, (p.2.map (fun kw => countBounded kw.data (fullTextOf content title))).sum))

/-- Highest score of the table, `max(scores.values())` with 0 for the
empty table. -/
def maxVal (l : List (String × Nat)) : Nat :=
  (l.map (fun p => p.2)).foldr Nat.max 0

/-- Sectors attaining the highest score, in table order. -/
def topSectors (l : List (String × Nat)) : List String :=
  (l.filter (fun p => p.2 == maxVal l)).map (fun p => p.1)

/-- Decision procedure of `categorize_content` over the computed scores:
when the highest score is positive and either it is attained uniquely or
it is at least 2, the first top sector is assigned; otherwise the
fallthrough assigns `general`.  The `headD` default is unreachable
because the top list is nonempty whenever the highest score is
positive. -/
def decideCategory (l : List (String × Nat)) : String :=
  if 0 < maxVal l then
    if (topSectors l).length = 1 ∨ 2 ≤ maxVal l then (topSectors l).headD "general"
    else "general"
  else "general"

/-- Embedding of `WebScraper.categorize_content`: the category assigned
to a record with the given content and title. -/
def categorizeContent (content title : String) : String :=
  decideCategory (sectorScores content title)

theorem mem_le_maxVal {l : List (String × Nat)} {p : String × Nat} (h : p ∈ l) :
    p.2 ≤ maxVal l := by
  induction l with
  | nil => cases h
  | cons x xs ih =>
    rcases List.mem_cons.mp h with h1 | h2
    · subst h1; exact le_max_left _ _
    · exact le_trans (ih h2) (le_max_right _ _)

theorem topSectors_length_of_maxVal_zero {l : List (String × Nat)}
    (h : maxVal l = 0) : (topSectors l).length = l.length := by
  have hf : l.filter (fun p => p.2 == maxVal l) = l := by
    refine List.filter_eq_self.mpr (fun p hp => ?_)
    have hle := mem_le_maxVal hp
    have h0 : p.2 = 0 := by omega
    simp [h0, h]
  simp [topSectors, hf]

theorem sectorScores_length (content title : String) :
    (sectorScores content title).length = 5 := by
  simp [sectorScores, sectorsTable]

/-- Claim C1: the Sector Scorer `categorize_content` follows the
specified decision procedure over the sector scores computed by counting
word-boundary delimited keyword occurrences in the lowercased combined
content and title: a zero maximum yields `general`; a uniquely attained
maximum yields that sector; a tie at a maximum of at least 2 yields the
first tied sector in the declared table order; a tie at a maximum of
exactly 1 yields `general`. -/
theorem c1_scorer_decision (content title : String) :
    (maxVal (sectorScores content title) = 0 →
      categorizeContent content title = "general") ∧
    (∀ s, topSectors (sectorScores content title) = [s] →
      categorizeContent content title = s) ∧
    (1 < (topSectors (sectorScores content title)).length →
      2 ≤ maxVal (sectorScores content title) →
      categorizeContent content title =
        (topSectors (sectorScores content title)).headD "general") ∧
    (1 < (topSectors (sectorScores content title)).length →
      maxVal (sectorScores content title) = 1 →
      categorizeContent content title = "general") := by
  refine ⟨?_, ?_, ?_, ?_⟩
  · intro h0
    simp [categorizeContent, decideCategory, h0]
  · intro s hs
    have hmx : maxVal (sectorScores content title) ≠ 0 := by
      intro h0
      have h1 := topSectors_length_of_maxVal_zero (l := sectorScores content title) h0
      rw [hs, sectorScores_length] at h1
      simp at h1
    have hpos : 0 < maxVal (sectorScores content title) := Nat.pos_of_ne_zero hmx
    simp only [categorizeContent, decideCategory, if_pos hpos]
    rw [if_pos (Or.inl (by rw [hs]; rfl))]
    rw [hs]
    rfl
  · intro _ h2
    have hpos : 0 < maxVal (sectorScores content title) := lt_of_lt_of_le (by norm_num) h2
    simp only [categorizeContent, decideCategory, if_pos hpos]
    rw [if_pos (Or.inr h2)]
  · intro hlen h1
    have hpos : 0 < maxVal (sectorScores content title) := by omega
    simp only [categorizeContent, decideCategory, if_pos hpos]
    rw [if_neg]
    push_neg
    exact ⟨by omega, by omega⟩

/-- Witness for C1: the four cases of the decision procedure at concrete
inputs.  With empty relevant text every score is 0 and the result is
`general`; with content `battery` only e-mobility scores (score 1,
unique) and is assigned; with two keywords from each of e-mobility and
manufacturing both tie at 2 and the first table sector wins; with one
keyword from each both tie at 1 and the result is `general`. -/
theorem c1_scorer_decision_witness :
    categorizeContent "hello there" "" = "general" ∧
    categorizeContent "battery" "" = "e-mobility" ∧
    categorizeContent "battery battery robotics robotics" "" = "e-mobility" ∧
    categorizeContent "battery robotics" "" = "general" := by
  refine ⟨?_, ?_, ?_, ?_⟩
  · exact (c1_scorer_decision "hello there" "").1 (by decide)
  · exact (c1_scorer_decision "battery" "").2.1 "e-mobility" (by decide)
  · have h := (c1_scorer_decision "battery battery robotics robotics" "").2.2.1
      (by decide) (by decide)
    rw [h]; decide
  · exact (c1_scorer_decision "battery robotics" "").2.2.2 (by decide) (by decide)

/-- Embedding of the Python test `hasattr(item, p)` where `item` ranges
over the `(word, tag)` tuples returned by `nltk.pos_tag` and `p` is the
attribute name used in `WebScraper._is_grammatical_sentence`: plain
tuples never carry that attribute, so the test is false for every
element. -/
def hasPosAttr : String × String → Bool := fun _ => false

/-- Embedding of the attribute access guarded by `hasPosAttr` in the
noun check.  It is never evaluated because the guard filters every
element out; the value is arbitrary. -/
def posAttrVal : String × String → String := fun _ => ""

/-- Prefix test on `String`, the embedding of Python
`str.startswith`. -/
def pyStartsWith (s pre : String) : Bool :=
  pre.data.isPrefixOf s.data

/-- Removes trailing characters satisfying `p`. -/
def dropEndWhile (p : Char → Bool) : List Char → List Char
  | [] => []
  | x :: xs => if (dropEndWhile p xs).isEmpty && p x then [] else x :: dropEndWhile p xs

/-- Embedding of Python `str.strip()`: removes leading and trailing
whitespace. -/
def pyStrip (s : String) : String :=
  String.mk ((dropEndWhile pyIsSpace s.data).dropWhile pyIsSpace)

/-- Tests whether a string ends with a dot, the embedding of
`s.endswith(".")`. -/
def endsWithDot (s : String) : Bool :=
  s.data.getLastD ' ' == '.'

/-- Embedding of `WebScraper._is_grammatical_sentence`.  The word
tokenizer and the part-of-speech tagger are parameters standing for
`nltk.word_tokenize` and `nltk.pos_tag`.  The noun check iterates the
tagged pairs filtered by the `hasattr` test, which holds for no pair;
the verb check looks for a tag starting with `VB`. -/
def isGrammaticalSentence (tok : String → List String)
    (tagger : List String → List (String × String)) (sentence : String) : Bool :=
  if sentence.length < 10 then false
  else if 500 < sentence.length then false
  else
    let words := tok (strLower sentence)
    if words.isEmpty then false
    else
      let tagged := tagger words
      let hasNoun := (tagged.filter hasPosAttr).any (fun wt => posAttrVal wt == "NOUN")
      let hasVerb := (tagger words).any (fun wt => pyStartsWith wt.2 "VB")
      hasNoun && hasVerb

/-- Embedding of `WebScraper._grammar_and_coherence_filter`.  The
sentence splitter parameter stands for `nltk.sent_tokenize` together
with its naive fallback; each sentence is stripped, filtered by the
grammatical test, survivors are joined with a dot and a space, and a
trailing dot is enforced on a nonempty result. -/
def grammarFilter (splitter : String → List String) (tok : String → List String)
    (tagger : List String → List (String × String)) (content : String) : String :=
  if content.data.isEmpty then ""
  else
    let filtered := ((splitter content).map pyStrip).filter (isGrammaticalSentence tok tagger)
    let c := String.intercalate ". " filtered
    if !c.data.isEmpty && !endsWithDot c then c ++ "." else c

theorem isGrammaticalSentence_false (tok : String → List String)
    (tagger : List String → List (String × String)) (sentence : String) :
    isGrammaticalSentence tok tagger sentence = false := by
  simp only [isGrammaticalSentence]
  split
  · rfl
  · split
    · rfl
    · split
      · rfl
      · simp [hasPosAttr]

/-- Claim C3: the Coherence Filter returns the empty string on every
input, whatever the sentence splitter, tokenizer and tagger do, because
the noun check of `_is_grammatical_sentence` filters the tagged pairs by
a `hasattr` test that no tuple satisfies, so no sentence is ever
accepted. -/
theorem c3_coherence_filter_always_empty (splitter tok : String → List String)
    (tagger : List String → List (String × String)) (content : String) :
    grammarFilter splitter tok tagger content = "" := by
  unfold grammarFilter
  split
  · rfl
  · have hf : ((splitter content).map pyStrip).filter (isGrammaticalSentence tok tagger) = [] := by
      simp [List.filter_eq_nil_iff, isGrammaticalSentence_false]
    rw [hf]
    rfl

/-- Concrete word tokenizer for the C2 scenario. -/
def c2Tok : String → List String := fun _ => ["the", "cat", "sat"]

/-- Concrete part-of-speech tagging for the C2 scenario: a determiner,
a noun tagged `NN` and a verb tagged `VBD`, as a standard tagger returns
on this sentence. -/
def c2Tag : List String → List (String × String) :=
  fun _ => [("the", "DT"), ("cat", "NN"), ("sat", "VBD")]

/-- Claim C2: the code contradicts the specified acceptance test.  The
sentence below has between 10 and 500 characters and its tagged tokens
contain a noun (tag `NN`) and a verb (tag `VBD`), so the specification
accepts it, yet `_is_grammatical_sentence` rejects it (as it rejects
every sentence): the noun check can never succeed.  This records a code
bug by direct evaluation of the embedding. -/
theorem c2_coherence_filter_rejects_valid_sentence :
    (10 ≤ ("The cat sat on it." : String).length ∧
      ("The cat sat on it." : String).length ≤ 500) ∧
    (c2Tag (c2Tok (strLower "The cat sat on it."))).any
      (fun wt => pyStartsWith wt.2 "NN") = true ∧
    (c2Tag (c2Tok (strLower "The cat sat on it."))).any
      (fun wt => pyStartsWith wt.2 "VB") = true ∧
    isGrammaticalSentence c2Tok c2Tag "The cat sat on it." = false := by
  refine ⟨⟨by decide, by decide⟩, by decide, by decide, by decide⟩

/-- Embedding of `ContentProcessor._enhance_category` of
`src/processor.py`: ordered substring scan of the space-joined
lowercased keywords against three indicator groups. -/
def enhanceCategoryA (base : String) (keywords : List String) : String :=
  let ks := strLower (String.intercalate " " keywords)
  if pyInS "electric" ks || pyInS "vehicle" ks || pyInS "battery" ks then "e-mobility"
  else if pyInS "manufactur" ks || pyInS "supply" ks || pyInS "automation" ks then "manufacturing"
  else if pyInS "government" ks || pyInS "policy" ks || pyInS "regulation" ks then
    "politics-governance"
  else base

/-- Embedding of `ContentProcessor._enhance_category` of
`src/processor_llm.py`: the same scan extended by startup and AI
indicator groups. -/
def enhanceCategoryB (base : String) (keywords : List String) : String :=
  let ks := strLower (String.intercalate " " keywords)
  if pyInS "electric" ks || pyInS "vehicle" ks || pyInS "battery" ks then "e-mobility"
  else if pyInS "manufactur" ks || pyInS "supply" ks || pyInS "automation" ks then "manufacturing"
  else if pyInS "government" ks || pyInS "policy" ks || pyInS "regulation" ks then
    "politics-governance"
  else if pyInS "startup" ks || pyInS "entrepreneur" ks || pyInS "funding" ks then
    "startup & innovation"
  else if pyInS "ai" ks || pyInS "artificial" ks || pyInS "intelligence" ks then "ai & ml"
  else base

/-- Sector enumeration claimed by the specification. -/
def specSectorList : List String :=
  ["e-mobility", "manufacturing", "politics-governance", "ai-ml", "startup-innovation",
   "general"]

/-- Category values the code can actually produce across
`categorize_content` and both `_enhance_category` variants. -/
def actualCategoryList : List String :=
  ["e-mobility", "manufacturing", "politics-governance",
   "artificial intelligence & machine learning", "startup & innovation", "ai & ml", "general"]

/-- Counterexample to claim C4: on a record about artificial
intelligence the Sector Scorer assigns the category
`artificial intelligence & machine learning`, which is not a member of
the sector enumeration stated in the specification. -/
theorem c4_category_outside_spec_enum :
    categorizeContent "artificial intelligence" "" =
      "artificial intelligence & machine learning" ∧
    "artificial intelligence & machine learning" ∉ specSectorList := by
  exact ⟨by decide, by decide⟩

theorem decideCategory_mem (l : List (String × Nat)) :
    decideCategory l ∈ "general" :: l.map (fun p => p.1) := by
  unfold decideCategory
  split
  · split
    · cases htop : topSectors l with
      | nil => simp [htop]
      | cons a as =>
        have ha : a ∈ topSectors l := by rw [htop]; exact List.mem_cons_self a as
        have hsub : topSectors l ⊆ l.map (fun p => p.1) := by
          unfold topSectors
          exact ((List.filter_sublist l).map (fun p => p.1)).subset
        simp only [htop, List.headD_cons]
        exact List.mem_cons_of_mem _ (hsub ha)
    · simp
  · simp

/-- Claim C4 as amended: every category produced by the Sector Scorer or
by either Category Refiner variant is a member of the enumeration the
code actually uses, namely `e-mobility`, `manufacturing`,
`politics-governance`, `artificial intelligence & machine learning`,
`startup & innovation`, `ai & ml`, `general`; the spec slugs `ai-ml` and
`startup-innovation` are never produced. -/
theorem c4_category_always_in_actual_enum (content title base : String)
    (hbase : base ∈ actualCategoryList) (kws kws2 : List String) :
    categorizeContent content title ∈ actualCategoryList ∧
    enhanceCategoryA base kws ∈ actualCategoryList ∧
    enhanceCategoryB base kws2 ∈ actualCategoryList := by
  refine ⟨?_, ?_, ?_⟩
  · have h1 := decideCategory_mem (sectorScores content title)
    have h2 : "general" :: (sectorScores content title).map (fun p => p.1) =
        ["general", "e-mobility", "manufacturing", "politics-governance",
         "artificial intelligence & machine learning", "startup & innovation"] := by
      simp [sectorScores, sectorsTable]
    rw [h2] at h1
    have h3 : categorizeContent content title = decideCategory (sectorScores content title) := rfl
    rw [h3]
    simp only [List.mem_cons, List.not_mem_nil, or_false] at h1
    rcases h1 with h | h | h | h | h | h <;> rw [h] <;> decide
  · simp only [enhanceCategoryA]
    split
    · decide
    · split
      · decide
      · split
        · decide
        · exact hbase
  · simp only [enhanceCategoryB]
    split
    · decide
    · split
      · decide
      · split
        · decide
        · split
          · decide
          · split
            · decide
            · exact hbase

/-- Witness for C4 as amended, at concrete inputs. -/
theorem c4_category_always_in_actual_enum_witness :
    ("general" ∈ actualCategoryList) ∧
    (categorizeContent "hello" "" ∈ actualCategoryList ∧
      enhanceCategoryA "general" [] ∈ actualCategoryList ∧
      enhanceCategoryB "general" [] ∈ actualCategoryList) :=
  ⟨by decide, c4_category_always_in_actual_enum "hello" "" "general" (by decide) [] []⟩

/-- Indicator substrings scanned by the `_enhance_category` of
`src/processor.py`, in scan order. -/
def indicatorsA : List String :=
  ["electric", "vehicle", "battery", "manufactur", "supply", "automation",
   "government", "policy", "regulation"]

/-- Indicator substrings scanned by the `_enhance_category` of
`src/processor_llm.py`, in scan order. -/
def indicatorsB : List String :=
  indicatorsA ++ ["startup", "entrepreneur", "funding", "ai", "artificial", "intelligence"]

/-- Claim C6: when the joined lowercased keywords contain `electric` as
a substring, both Category Refiner variants return `e-mobility`
regardless of the base category, because the e-mobility indicators are
scanned first; and when none of the indicator substrings occur, the base
category is returned unchanged by the respective variant. -/
theorem c6_category_refiner (base : String) (kws : List String) :
    (pyInS "electric" (strLower (String.intercalate " " kws)) = true →
      enhanceCategoryA base kws = "e-mobility" ∧ enhanceCategoryB base kws = "e-mobility") ∧
    (indicatorsA.all (fun n => !pyInS n (strLower (String.intercalate " " kws))) = true →
      enhanceCategoryA base kws = base) ∧
    (indicatorsB.all (fun n => !pyInS n (strLower (String.intercalate " " kws))) = true →
      enhanceCategoryB base kws = base) := by
  refine ⟨?_, ?_, ?_⟩
  · intro h
    constructor
    · simp [enhanceCategoryA, h]
    · simp [enhanceCategoryB, h]
  · intro h
    rw [List.all_eq_true] at h
    have h1 := h "electric" (by decide)
    have h2 := h "vehicle" (by decide)
    have h3 := h "battery" (by decide)
    have h4 := h "manufactur" (by decide)
    have h5 := h "supply" (by decide)
    have h6 := h "automation" (by decide)
    have h7 := h "government" (by decide)
    have h8 := h "policy" (by decide)
    have h9 := h "regulation" (by decide)
    simp only [Bool.not_eq_true'] at h1 h2 h3 h4 h5 h6 h7 h8 h9
    simp [enhanceCategoryA, h1, h2, h3, h4, h5, h6, h7, h8, h9]
  · intro h
    rw [List.all_eq_true] at h
    have h1 := h "electric" (by decide)
    have h2 := h "vehicle" (by decide)
    have h3 := h "battery" (by decide)
    have h4 := h "manufactur" (by decide)
    have h5 := h "supply" (by decide)
    have h6 := h "automation" (by decide)
    have h7 := h "government" (by decide)
    have h8 := h "policy" (by decide)
    have h9 := h "regulation" (by decide)
    have h10 := h "startup" (by decide)
    have h11 := h "entrepreneur" (by decide)
    have h12 := h "funding" (by decide)
    have h13 := h "ai" (by decide)
    have h14 := h "artificial" (by decide)
    have h15 := h "intelligence" (by decide)
    simp only [Bool.not_eq_true'] at h1 h2 h3 h4 h5 h6 h7 h8 h9 h10 h11 h12 h13 h14 h15
    simp [enhanceCategoryB, h1, h2, h3, h4, h5, h6, h7, h8, h9, h10, h11, h12, h13, h14, h15]

/-- Witness for C6 at concrete inputs: keywords containing `electric`
override any base category, and keywords matching no indicator keep the
base category. -/
theorem c6_category_refiner_witness :
    (pyInS "electric" (strLower (String.intercalate " " ["electric", "motor"])) = true ∧
      (enhanceCategoryA "politics-governance" ["electric", "motor"] = "e-mobility" ∧
        enhanceCategoryB "politics-governance" ["electric", "motor"] = "e-mobility")) ∧
    (indicatorsA.all
        (fun n => !pyInS n (strLower (String.intercalate " " ["zzz", "qqq"]))) = true ∧
      enhanceCategoryA "general" ["zzz", "qqq"] = "general") ∧
    (indicatorsB.all
        (fun n => !pyInS n (strLower (String.intercalate " " ["zzz", "qqq"]))) = true ∧
      enhanceCategoryB "general" ["zzz", "qqq"] = "general") :=
  ⟨⟨by decide, (c6_category_refiner "politics-governance" ["electric", "motor"]).1 (by decide)⟩,
   ⟨by decide, (c6_category_refiner "general" ["zzz", "qqq"]).2.1 (by decide)⟩,
   ⟨by decide, (c6_category_refiner "general" ["zzz", "qqq"]).2.2 (by decide)⟩⟩

/-- Sector context keyword table of `WebScraper._sector_context_filter`,
in the declared iteration order of the Python dict.  Unlike the table of
`categorize_content`, the entries are single words matched as plain
substrings. -/
def contextTable : List (String × List String) :=
  [("e-mobility",
    ["electric", "vehicle", "battery", "charging", "sustainable", "mobility", "green",
     "energy", "transport", "autonomous"]),
   ("manufacturing",
    ["manufacture", "production", "supply", "chain", "automation", "robotics", "factory",
     "industry", "efficiency"]),
   ("politics-governance",
    ["government", "policy", "regulation", "election", "legislation", "political",
     "governance", "law", "minister"]),
   ("artificial intelligence & machine learning",
    ["artificial", "intelligence", "machine", "learning", "ai", "algorithm", "data",
     "neural", "deep"]),
   ("startup & innovation",
    ["startup", "innovation", "venture", "entrepreneur", "funding", "business", "model",
     "disruption", "scalability"])]

/-- Combined text scored by `_sector_context_filter`: lowercased title,
space, content.  Note the opposite order from `categorize_content`. -/
def contextFullText (content title : String) : String :=
  strLower (title ++ " " ++ content)

/-- Context scores: for each sector, the number of its context keywords
occurring in the combined text as plain substrings (each keyword counts
at most once). -/
def contextScores (content title : String) : List ((String × List String) × Nat) :=
  contextTable.map
    (fun p => (p, (p.2.filter (fun kw => pyInS kw (contextFullText content title))).length))

/-- First entry attaining the maximal score, the embedding of the Python
`max(sector_scores, key=sector_scores.get)`, which keeps the current
candidate unless a strictly greater score appears. -/
def pickMaxAux (acc : (String × List String) × Nat) :
    List ((String × List String) × Nat) → (String × List String) × Nat
  | [] => acc
  | p :: rest => pickMaxAux (if acc.2 < p.2 then p else acc) rest

/-- Best sector of the context scorer.  The default of the empty case is
unreachable because the table has five entries. -/
def contextBest (content title : String) : (String × List String) × Nat :=
  match contextScores content title with
  | [] => (("", []), 0)
  | p :: rest => pickMaxAux p rest

/-- Sentences of the content retained by the context filter: those whose
lowercased text contains one of the best sector context keywords as a
plain substring. -/
def contextRelevant (splitter : String → List String) (content title : String) :
    List String :=
  (splitter content).filter
    (fun s => (contextBest content title).1.2.any (fun kw => pyInS kw (strLower s)))

/-- Appends a trailing dot when missing, the embedding of the
`endswith` guard used after rejoining sentences. -/
def withDot (c : String) : String :=
  if endsWithDot c then c else c ++ "."

/-- Embedding of `WebScraper._sector_context_filter`.  The splitter
parameter stands for `nltk.sent_tokenize`; the exception fallback of the
source keeps the content unchanged and is subsumed by the two
pass-through branches. -/
def sectorContextFilter (splitter : String → List String) (content title : String) :
    String :=
  if content.data.isEmpty then ""
  else if 0 < (contextBest content title).2 then
    if (contextRelevant splitter content title).isEmpty then content
    else withDot (String.intercalate ". " (contextRelevant splitter content title))
  else content

/-- Counterexample to claim C5: on the record with content
`Hello world.` and title `battery`, the Sector Scorer of section 4.4
assigns the non-general sector `e-mobility`, no keyword of that sector
(neither a scorer phrase nor a context word) occurs in the single
sentence, so the claimed filter output is the empty rejoining; yet the
filter returns the content unchanged, because with no matching sentence
the source keeps the original content, and its sector comes from its own
scorer rather than from section 4.4. -/
theorem c5_context_filter_counterexample :
    categorizeContent "Hello world." "battery" = "e-mobility" ∧
    ((sectorsTable.filter (fun p => p.1 == "e-mobility")).all
      (fun p => p.2.all (fun kw => !pyInS kw (strLower "Hello world.")))) = true ∧
    ((contextTable.filter (fun p => p.1 == "e-mobility")).all
      (fun p => p.2.all (fun kw => !pyInS kw (strLower "Hello world.")))) = true ∧
    sectorContextFilter (fun _ => ["Hello world."]) "Hello world." "battery" =
      "Hello world." ∧
    ("Hello world." : String) ≠ "" := by
  refine ⟨by decide, by decide, by decide, by decide, by decide⟩

/-- Claim C5 as amended: the Sector Context Filter selects its sector
with its own scorer (counting, per sector of its context table, the
distinct context keywords occurring as plain substrings of the
lowercased title plus content, the first maximal sector winning); when
the best score is zero the stage passes the content through; otherwise
it retains exactly the sentences containing one of the best sector
context keywords as a plain substring of the lowercased sentence,
rejoined with a dot and a space and a trailing dot enforced, except that
when no sentence matches the content is passed through unchanged. -/
theorem c5_context_filter_behaviour (splitter : String → List String)
    (content title : String) (hne : ¬content.data.isEmpty) :
    ((contextBest content title).2 = 0 →
      sectorContextFilter splitter content title = content) ∧
    (0 < (contextBest content title).2 →
      contextRelevant splitter content title = [] →
      sectorContextFilter splitter content title = content) ∧
    (0 < (contextBest content title).2 →
      contextRelevant splitter content title ≠ [] →
      sectorContextFilter splitter content title =
        withDot (String.intercalate ". " (contextRelevant splitter content title))) := by
  refine ⟨?_, ?_, ?_⟩
  · intro h0
    simp [sectorContextFilter, hne, h0]
  · intro hpos hrel
    simp [sectorContextFilter, hne, hpos, hrel]
  · intro hpos hrel
    simp [sectorContextFilter, hne, hpos, hrel]

/-- Witness for C5 as amended: the three branches at concrete inputs.
With content `Hello.` and title `qqq` every context score is zero and
the content passes through; with content `Hello world.` and title
`battery` the best score is positive but no sentence matches, so the
content passes through; with the two-sentence content below the first
sentence contains `battery` and is the only one retained. -/
theorem c5_context_filter_behaviour_witness :
    sectorContextFilter (fun _ => ["Hello."]) "Hello." "qqq" = "Hello." ∧
    sectorContextFilter (fun _ => ["Hello world."]) "Hello world." "battery" =
      "Hello world." ∧
    sectorContextFilter (fun _ => ["Battery good.", "Hello there."])
      "Battery good. Hello there." "" = "Battery good." := by
  refine ⟨?_, ?_, ?_⟩
  · exact (c5_context_filter_behaviour (fun _ => ["Hello."]) "Hello." "qqq"
      (by decide)).1 (by decide)
  · exact (c5_context_filter_behaviour (fun _ => ["Hello world."]) "Hello world." "battery"
      (by decide)).2.1 (by decide) (by decide)
  · have h := (c5_context_filter_behaviour (fun _ => ["Battery good.", "Hello there."])
      "Battery good. Hello there." "" (by decide)).2.2 (by decide) (by decide)
    rw [h]
    decide

/-- Embedding of `ContentProcessor.batch_process` (the loop is identical
in `src/processor.py` and `src/processor_llm.py`).  Per-record
processing that may raise is modelled by a function into `Except`: an
`ok` result is appended, a raised exception is caught and the original
record (with whatever fields it carried when the stage failed) is
appended instead.  The function is total, embedding the guarantee that
the batch operation itself never raises. -/
def batchProcess {α ε : Type} (f : α → Except ε α) (l : List α) : List α :=
  l.map (fun r => match f r with | .ok r2 => r2 | .error _ => r)

/-- Claim C7: batch processing preserves the length and the order of the
input list; at every position the output is the processed record when
processing succeeds and the unprocessed input record when processing
raises, and the batch itself never fails. -/
theorem c7_batch_process_shape {α ε : Type} (f : α → Except ε α) (l : List α) :
    (batchProcess f l).length = l.length ∧
    ∀ i : Nat, (batchProcess f l)[i]? =
      l[i]?.map (fun r => match f r with | .ok r2 => r2 | .error _ => r) := by
  constructor
  · simp [batchProcess]
  · intro i
    simp [batchProcess, List.getElem?_map]

/-- Embedding of Python `str.isalnum`: nonempty and all characters
alphanumeric. -/
def pyStrIsAlnum (w : String) : Bool :=
  !w.data.isEmpty && w.data.all Char.isAlphanum

/-- One counting step of the `collections.Counter` model: increments the
count of `w` when present, appends `(w, 1)` at the end otherwise, so the
association list stays in first-appearance order. -/
def bump (w : String) : List (String × Nat) → List (String × Nat)
  | [] => [(w, 1)]
  | p :: rest => if p.1 == w then (p.1, p.2 + 1) :: rest else p :: bump w rest

/-- Embedding of `collections.Counter(ws)` as an association list in
first-appearance order of the elements of the token stream `ws`. -/
def countOcc (ws : List String) : List (String × Nat) :=
  ws.foldl (fun acc w => bump w acc) []

/-- Stable insertion into a list sorted by descending count: the new
pair, which stems from an earlier position of the count list, is placed
before every pair with a smaller or equal count. -/
def insDesc (p : String × Nat) : List (String × Nat) → List (String × Nat)
  | [] => [p]
  | q :: rest => if q.2 ≤ p.2 then p :: q :: rest else q :: insDesc p rest

/-- Stable sort by descending count, the embedding of the documented
behaviour of `Counter.most_common`: elements with equal counts keep
their first-encountered order. -/
def sortDesc (l : List (String × Nat)) : List (String × Nat) :=
  l.foldr insDesc []

/-- Embedding of `Counter(ws).most_common(n)`: the first `n` pairs of
the stable descending sort of the counts. -/
def mostCommon (n : Nat) (ws : List String) : List (String × Nat) :=
  (sortDesc (countOcc ws)).take n

/-- Token Pipeline of `ContentProcessor.process_content`: tokenized
lowercased text, alphanumeric tokens only, stopwords and tokens of at
most 2 characters dropped, survivors lemmatized.  Tokenizer, lemmatizer
and stopword set are parameters standing for the NLTK components. -/
def filteredTokens (tok : String → List String) (lem : String → String)
    (stop : String → Bool) (text : String) : List String :=
  (((tok (strLower text)).filter pyStrIsAlnum).filter
    (fun w => !stop w && 2 < w.length)).map lem

/-- Ranked keyword pairs of the Keyword Extractor:
`Counter(filtered_words).most_common(10)`. -/
def keywordPairs (tok : String → List String) (lem : String → String)
    (stop : String → Bool) (text : String) : List (String × Nat) :=
  mostCommon 10 (filteredTokens tok lem stop text)

/-- Keyword list stored on the record. -/
def keywordsOf (tok : String → List String) (lem : String → String)
    (stop : String → Bool) (text : String) : List String :=
  (keywordPairs tok lem stop text).map (fun p => p.1)

/-- Per-sentence token stream of the Theme Extractor: tokenized
lowercased sentence, alphanumeric non-stopword tokens (no length filter
and no lemmatization here, as in the source). -/
def sentenceBigramTokens (tok : String → List String) (stop : String → Bool)
    (s : String) : List String :=
  (tok (strLower s)).filter (fun w => pyStrIsAlnum w && !stop w)

/-- Adjacent-word bigrams of a token list, joined by a space. -/
def bigramsOf (ws : List String) : List String :=
  (ws.zip ws.tail).map (fun p => p.1 ++ " " ++ p.2)

/-- Bigram stream accumulated over all sentences. -/
def allBigrams (splitter tok : String → List String) (stop : String → Bool)
    (text : String) : List String :=
  ((splitter text).map (fun s => bigramsOf (sentenceBigramTokens tok stop s))).flatten

/-- Ranked theme pairs of the Theme Extractor:
`Counter(themes).most_common(5)`. -/
def themePairs (splitter tok : String → List String) (stop : String → Bool)
    (text : String) : List (String × Nat) :=
  mostCommon 5 (allBigrams splitter tok stop text)

/-- Theme list stored on the record. -/
def themesOf (splitter tok : String → List String) (stop : String → Bool)
    (text : String) : List String :=
  (themePairs splitter tok stop text).map (fun p => p.1)

theorem mem_insDesc {p q : String × Nat} {l : List (String × Nat)}
    (h : q ∈ insDesc p l) : q = p ∨ q ∈ l := by
  induction l with
  | nil => simpa [insDesc] using h
  | cons x xs ih =>
    unfold insDesc at h
    split at h
    · rcases List.mem_cons.mp h with h1 | h2
      · exact Or.inl h1
      · exact Or.inr h2
    · rcases List.mem_cons.mp h with h1 | h2
      · exact Or.inr (by rw [h1]; exact List.mem_cons_self x xs)
      · rcases ih h2 with h3 | h4
        · exact Or.inl h3
        · exact Or.inr (List.mem_cons_of_mem x h4)

theorem insDesc_sorted {p : String × Nat} {l : List (String × Nat)}
    (h : List.Pairwise (fun a b => b.2 ≤ a.2) l) :
    List.Pairwise (fun a b => b.2 ≤ a.2) (insDesc p l) := by
  induction l with
  | nil => simp [insDesc]
  | cons q rest ih =>
    rcases List.pairwise_cons.mp h with ⟨hq, hrest⟩
    unfold insDesc
    split
    · rename_i hle
      refine List.pairwise_cons.mpr ⟨?_, h⟩
      intro r hr
      rcases List.mem_cons.mp hr with h1 | h2
      · rw [h1]; exact hle
      · exact le_trans (hq r h2) hle
    · rename_i hgt
      refine List.pairwise_cons.mpr ⟨?_, ih hrest⟩
      intro r hr
      rcases mem_insDesc hr with h1 | h2
      · rw [h1]; omega
      · exact hq r h2

theorem sortDesc_sorted (l : List (String × Nat)) :
    List.Pairwise (fun a b => b.2 ≤ a.2) (sortDesc l) := by
  induction l with
  | nil => simp [sortDesc]
  | cons x xs ih => exact insDesc_sorted ih

theorem filter_insDesc (p : String × Nat) (l : List (String × Nat)) (k : Nat) :
    (insDesc p l).filter (fun q => q.2 == k) =
      if p.2 = k then p :: l.filter (fun q => q.2 == k)
      else l.filter (fun q => q.2 == k) := by
  induction l with
  | nil =>
    by_cases hp : p.2 = k <;> simp [insDesc, List.filter_cons, hp]
  | cons q rest ih =>
    unfold insDesc
    split
    · rename_i hle
      by_cases hp : p.2 = k <;> simp [List.filter_cons, hp]
    · rename_i hgt
      by_cases hq : q.2 = k
      · have hp : ¬p.2 = k := by omega
        simp [List.filter_cons, hq, hp, ih]
      · by_cases hp : p.2 = k <;> simp [List.filter_cons, hq, hp, ih]

theorem sortDesc_stable (l : List (String × Nat)) (k : Nat) :
    (sortDesc l).filter (fun q => q.2 == k) = l.filter (fun q => q.2 == k) := by
  induction l with
  | nil => rfl
  | cons x xs ih =>
    have h1 : sortDesc (x :: xs) = insDesc x (sortDesc xs) := rfl
    rw [h1, filter_insDesc]
    by_cases hx : x.2 = k <;> simp [List.filter_cons, hx, ih]

/-- Claim C9: for every record and every behaviour of the external
tokenizer, lemmatizer, stopword set and sentence splitter, the keyword
list has at most 10 entries and the theme list at most 5; both rankings
are sorted by descending count, and for every count value the ranked
pairs with that count appear in exactly the order of the underlying
count list, which `countOcc` keeps in first-appearance order of the
token (respectively bigram) stream — the first-seen tie-break. -/
theorem c9_rankings (tok : String → List String) (lem : String → String)
    (stop : String → Bool) (splitter : String → List String) (text : String) :
    (keywordsOf tok lem stop text).length ≤ 10 ∧
    (themesOf splitter tok stop text).length ≤ 5 ∧
    List.Pairwise (fun a b => b.2 ≤ a.2) (keywordPairs tok lem stop text) ∧
    List.Pairwise (fun a b => b.2 ≤ a.2) (themePairs splitter tok stop text) ∧
    (∀ k, (sortDesc (countOcc (filteredTokens tok lem stop text))).filter
        (fun q => q.2 == k) =
      (countOcc (filteredTokens tok lem stop text)).filter (fun q => q.2 == k)) ∧
    (∀ k, (sortDesc (countOcc (allBigrams splitter tok stop text))).filter
        (fun q => q.2 == k) =
      (countOcc (allBigrams splitter tok stop text)).filter (fun q => q.2 == k)) := by
  refine ⟨?_, ?_, ?_, ?_, ?_, ?_⟩
  · calc (keywordsOf tok lem stop text).length
        = (keywordPairs tok lem stop text).length := by simp [keywordsOf]
      _ ≤ 10 := by
          simp only [keywordPairs, mostCommon, List.length_take]
          omega
  · calc (themesOf splitter tok stop text).length
        = (themePairs splitter tok stop text).length := by simp [themesOf]
      _ ≤ 5 := by
          simp only [themePairs, mostCommon, List.length_take]
          omega
  · exact List.Pairwise.sublist (List.take_sublist _ _) (sortDesc_sorted _)
  · exact List.Pairwise.sublist (List.take_sublist _ _) (sortDesc_sorted _)
  · intro k; exact sortDesc_stable _ k
  · intro k; exact sortDesc_stable _ k

/-- Regular-expression syntax needed by the patterns of
`WebScraper._remove_irrelevant_content`: empty match, one-character
class, sequencing, ordered alternation, greedy star, word boundary. -/
inductive Rx where
  | eps : Rx
  | cls : (Char → Bool) → Rx
  | seq : Rx → Rx → Rx
  | alt : Rx → Rx → Rx
  | star : Rx → Rx
  | wb : Rx

/-- Word-character test on an optional character; the ends of the text
count as non-word. -/
def isWordCharO : Option Char → Bool
  | none => false
  | some c => isWordChar c

/-- Word-boundary test between the previously consumed character and
the next character. -/
def atBoundary (p n : Option Char) : Bool :=
  isWordCharO p != isWordCharO n

/-- Fuelled backtracking matcher.  Given the previously consumed
character and the input suffix it returns the list of possible
continuation states (new previous character, remaining suffix) in the
exploration order of a standard backtracking engine: ordered
alternation, greedy quantifiers.  The star keeps only progressing
iterations of its body, which changes nothing for the patterns below
(every star body consumes a character) and makes the fuel
`2 * length + 100` sufficient on every input of the uses below. -/
def runRx : Nat → Rx → Option Char → List Char → List (Option Char × List Char)
  | 0, _, _, _ => []
  | _ + 1, .eps, p, s => [(p, s)]
  | _ + 1, .cls g, _, s =>
    match s with
    | [] => []
    | c :: r => if g c then [(some c, r)] else []
  | fuel + 1, .seq a b, p, s =>
    (runRx fuel a p s).flatMap (fun q => runRx fuel b q.1 q.2)
  | fuel + 1, .alt a b, p, s => runRx fuel a p s ++ runRx fuel b p s
  | fuel + 1, .star a, p, s =>
    ((runRx fuel a p s).filter (fun q => q.2.length < s.length)).flatMap
      (fun q => runRx fuel (.star a) q.1 q.2) ++ [(p, s)]
  | _ + 1, .wb, p, s => if atBoundary p s.head? then [(p, s)] else []

/-- Anchored matcher obtained from a pattern: the length of the first
match found at the current position, in backtracking order, as
`re.match` would produce, or `none`. -/
def mkMatcher (r : Rx) : Option Char → List Char → Option Nat :=
  fun p s => (runRx (2 * s.length + 100) r p s).head?.map (fun q => s.length - q.2.length)

/-- Sequence of case-insensitive literal characters (the letters of a
word under the `re.IGNORECASE` flag). -/
def litsCI (w : String) : Rx :=
  w.data.foldr (fun c acc => Rx.seq (Rx.cls (fun x => x.toLower == c)) acc) Rx.eps

/-- Sequence of case-sensitive literal characters. -/
def litsCS (w : String) : Rx :=
  w.data.foldr (fun c acc => Rx.seq (Rx.cls (fun x => x == c)) acc) Rx.eps

/-- Ordered alternation of a list of patterns. -/
def altList : List Rx → Rx
  | [] => Rx.cls (fun _ => false)
  | [r] => r
  | r :: rest => Rx.alt r (altList rest)

/-- Greedy plus. -/
def plusRx (r : Rx) : Rx := Rx.seq r (Rx.star r)

/-- Greedy option. -/
def optRx (r : Rx) : Rx := Rx.alt r Rx.eps

/-- Exactly `n` repetitions. -/
def repRx (n : Nat) (r : Rx) : Rx :=
  (List.replicate n r).foldr Rx.seq Rx.eps

/-- Class `\s`. -/
def wsCls : Rx := Rx.cls pyIsSpace

/-- Pattern `\s+`. -/
def wsPlus : Rx := plusRx wsCls

/-- Class `\d`. -/
def digitCls : Rx := Rx.cls Char.isDigit

/-- Words separated by `\s+`. -/
def phraseCore : List String → Rx
  | [] => Rx.eps
  | [w] => litsCI w
  | w :: rest => Rx.seq (litsCI w) (Rx.seq wsPlus (phraseCore rest))

/-- Case-insensitive boilerplate phrase pattern
`\b w1 \s+ w2 ... \b`. -/
def phraseCI (ws : List String) : Rx :=
  Rx.seq Rx.wb (Rx.seq (phraseCore ws) Rx.wb)

/-- Pattern 1 of the noise filter:
`\b(menu|navigation|nav|header|footer|sidebar|advertisement|ad|banner)\b`
with `re.IGNORECASE`, alternatives in source order. -/
def boilerAltRx : Rx :=
  Rx.seq Rx.wb (Rx.seq
    (altList (["menu", "navigation", "nav", "header", "footer", "sidebar",
               "advertisement", "ad", "banner"].map litsCI)) Rx.wb)

/-- Pattern 2: `\bcopyright\s+\d{4}` with `re.IGNORECASE` (no trailing
boundary in the source). -/
def copyrightRx : Rx :=
  Rx.seq Rx.wb (Rx.seq (litsCI "copyright") (Rx.seq wsPlus (repRx 4 digitCls)))

/-- Character class of the URL pattern: letters, digits, the range from
dollar to underscore, and the escaped punctuation alternatives; the
percent-hex alternative is subsumed because percent lies in the
range. -/
def urlCls : Rx :=
  Rx.cls (fun c => c.isAlpha || c.isDigit || ('$' ≤ c && c ≤ '_') ||
    c == '!' || c == '*' || c == '\\' || c == '(' || c == ')' || c == ',')

/-- Pattern 13: `http[s]?://(...)+`, case sensitive. -/
def urlRx : Rx :=
  Rx.seq (litsCS "http") (Rx.seq (optRx (litsCS "s")) (Rx.seq (litsCS "://") (plusRx urlCls)))

/-- Local-part class of the email pattern. -/
def localCls : Rx :=
  Rx.cls (fun c => c.isAlpha || c.isDigit || c == '.' || c == '_' || c == '%' ||
    c == '+' || c == '-')

/-- Domain class of the email pattern. -/
def domCls : Rx :=
  Rx.cls (fun c => c.isAlpha || c.isDigit || c == '.' || c == '-')

/-- Top-level-domain class of the email pattern, `[A-Z|a-z]`: the
source class literally contains the bar character. -/
def tldCls : Rx :=
  Rx.cls (fun c => c.isAlpha || c == '|')

/-- Pattern 14: `\b[A-Za-z0-9._%+-]+@[A-Za-z0-9.-]+\.[A-Z|a-z]{2,}\b`. -/
def emailRx : Rx :=
  Rx.seq Rx.wb (Rx.seq (plusRx localCls) (Rx.seq (litsCS "@") (Rx.seq (plusRx domCls)
    (Rx.seq (litsCS ".") (Rx.seq tldCls (Rx.seq tldCls (Rx.seq (Rx.star tldCls) Rx.wb)))))))

/-- Optional separator `[-.]?` of the phone pattern. -/
def sepOpt : Rx := optRx (Rx.cls (fun c => c == '-' || c == '.'))

/-- Pattern 15: `\b\d{3}[-.]?\d{3}[-.]?\d{4}\b`. -/
def phoneRx : Rx :=
  Rx.seq Rx.wb (Rx.seq (repRx 3 digitCls) (Rx.seq sepOpt (Rx.seq (repRx 3 digitCls)
    (Rx.seq sepOpt (Rx.seq (repRx 4 digitCls) Rx.wb)))))

/-- All substitution patterns of
`WebScraper._remove_irrelevant_content`, in application order: the
twelve boilerplate patterns, then URL, email and phone removal. -/
def noisePatterns : List Rx :=
  [boilerAltRx, copyrightRx,
   phraseCI ["privacy", "policy"], phraseCI ["terms", "of", "service"],
   phraseCI ["contact", "us"], phraseCI ["about", "us"],
   phraseCI ["sign", "in"], phraseCI ["log", "in"], phraseCI ["sign", "up"],
   phraseCI ["register"], phraseCI ["newsletter"], phraseCI ["subscribe"],
   urlRx, emailRx, phoneRx]

/-- Matchers of the noise patterns. -/
def noiseMatchers : List (Option Char → List Char → Option Nat) :=
  noisePatterns.map mkMatcher

/-- Fuelled scanner of `re.sub(pattern, r, text)` with empty
replacement: at each position the anchored matcher is tried; a match is
removed and scanning resumes after it (the previous-character context
becomes the last matched character, as in the original string); on no
match one character is copied.  Matches of length zero cannot occur for
the patterns above. -/
def reSubAux (m : Option Char → List Char → Option Nat) :
    Nat → Option Char → List Char → List Char
  | _, _, [] => []
  | 0, _, t => t
  | fuel + 1, p, c :: rest =>
    match m p (c :: rest) with
    | some (n + 1) =>
      reSubAux m fuel (some (((c :: rest).take (n + 1)).getLastD c)) ((c :: rest).drop (n + 1))
    | _ => c :: reSubAux m fuel (some c) rest

/-- Embedding of `re.sub(pattern, r, text)` with empty replacement. -/
def reSub (m : Option Char → List Char → Option Nat) (t : List Char) : List Char :=
  reSubAux m t.length none t

/-- Scans the text and checks that the matcher matches at no position,
with the correct previous-character context at each position. -/
def scanAll (m : Option Char → List Char → Option Nat) :
    Option Char → List Char → Bool
  | _, [] => true
  | p, c :: rest => (m p (c :: rest)).isNone && scanAll m (some c) rest

/-- Embedding of `WebScraper._remove_irrelevant_content`: the fifteen
substitutions in order, followed by `(' ').join(content.split())`. -/
def noiseFilterL (t : List Char) : List Char :=
  pyJoinSplitL (noiseMatchers.foldl (fun acc m => reSub m acc) t)

/-- Non-whitespace characters, used to state that a transformation
changes only whitespace. -/
def nonSp (c : Char) : Bool := !pyIsSpace c

theorem reSubAux_id (m : Option Char → List Char → Option Nat) :
    ∀ (t : List Char) (p : Option Char) (fuel : Nat), t.length ≤ fuel →
      scanAll m p t = true → reSubAux m fuel p t = t := by
  intro t
  induction t with
  | nil => intro p fuel _ _; cases fuel <;> rfl
  | cons c rest ih =>
    intro p fuel hlen hscan
    cases fuel with
    | zero => simp at hlen
    | succ f =>
      have hs := hscan
      unfold scanAll at hs
      rw [Bool.and_eq_true] at hs
      have hm : m p (c :: rest) = none := Option.isNone_iff_eq_none.mp hs.1
      show reSubAux m (f + 1) p (c :: rest) = c :: rest
      unfold reSubAux
      rw [hm]
      have : rest.length ≤ f := by simp at hlen; omega
      rw [ih (some c) f this hs.2]

theorem foldl_reSub_id (ms : List (Option Char → List Char → Option Nat)) (t : List Char)
    (h : ∀ m ∈ ms, scanAll m none t = true) :
    ms.foldl (fun acc m => reSub m acc) t = t := by
  induction ms with
  | nil => rfl
  | cons m ms ih =>
    have h1 : reSub m t = t :=
      reSubAux_id m t none t.length (le_refl _) (h m (List.mem_cons_self m ms))
    simp only [List.foldl_cons, h1]
    exact ih (fun m2 hm2 => h m2 (List.mem_cons_of_mem m hm2))

theorem nonSp_space : nonSp ' ' = false := rfl

theorem filter_nonSp_map_toSp (z : List Char) :
    (z.map toSp).filter nonSp = z.filter nonSp := by
  induction z with
  | nil => rfl
  | cons c cs ih =>
    by_cases h : pyIsSpace c = true
    · have h1 : toSp c = ' ' := by simp [toSp, h]
      have h2 : nonSp c = false := by simp [nonSp, h]
      simp [List.filter_cons, h1, h2, nonSp_space, ih]
    · have h1 : toSp c = c := by simp [toSp, h]
      simp [List.filter_cons, h1, ih]

theorem filter_nonSp_replicate_space (j : Nat) :
    (List.replicate j ' ').filter nonSp = [] := by
  induction j with
  | zero => rfl
  | succ n ih => simp [List.replicate_succ, List.filter_cons, nonSp_space, ih]

theorem filter_nonSp_crGo_space (z : List Char) :
    ∀ n, (crGo ' ' 2 1 z n).filter nonSp = z.filter nonSp := by
  induction z with
  | nil =>
    intro n
    show (crEmit ' ' 2 1 n).filter nonSp = List.filter nonSp []
    unfold crEmit
    rw [filter_nonSp_replicate_space]
    rfl
  | cons x xs ih =>
    intro n
    by_cases h : x = ' '
    · subst h
      have h1 : crGo ' ' 2 1 (' ' :: xs) n = crGo ' ' 2 1 xs (n + 1) := by
        show (if ' ' = ' ' then crGo ' ' 2 1 xs (n + 1)
          else crEmit ' ' 2 1 n ++ ' ' :: crGo ' ' 2 1 xs 0) = crGo ' ' 2 1 xs (n + 1)
        rw [if_pos rfl]
      rw [h1, ih (n + 1)]
      simp [List.filter_cons, nonSp_space]
    · have h1 : crGo ' ' 2 1 (x :: xs) n = crEmit ' ' 2 1 n ++ x :: crGo ' ' 2 1 xs 0 := by
        show (if x = ' ' then crGo ' ' 2 1 xs (n + 1)
          else crEmit ' ' 2 1 n ++ x :: crGo ' ' 2 1 xs 0) =
            crEmit ' ' 2 1 n ++ x :: crGo ' ' 2 1 xs 0
        rw [if_neg h]
      rw [h1, List.filter_append]
      have h2 : (crEmit ' ' 2 1 n).filter nonSp = [] := by
        unfold crEmit
        exact filter_nonSp_replicate_space _
      rw [h2]
      simp [List.filter_cons, ih 0]

theorem filter_nonSp_trimL (z : List Char) :
    (trimL z).filter nonSp = z.filter nonSp := by
  induction z with
  | nil => rfl
  | cons x xs ih =>
    by_cases h : x = ' '
    · subst h
      have h1 : trimL (' ' :: xs) = trimL xs := by
        simp [trimL, List.dropWhile_cons]
      rw [h1, ih]
      simp [List.filter_cons, nonSp_space]
    · have hb : (x == ' ') = false := by simp [h]
      have h1 : trimL (x :: xs) = x :: xs := by
        simp [trimL, List.dropWhile_cons, hb]
      rw [h1]

theorem filter_nonSp_trimR (z : List Char) :
    (trimR z).filter nonSp = z.filter nonSp := by
  induction z with
  | nil => rfl
  | cons x xs ih =>
    unfold trimR
    split
    · rename_i hcond
      rw [Bool.and_eq_true, beq_iff_eq] at hcond
      obtain ⟨hemp, hx⟩ := hcond
      subst hx
      have hxs : trimR xs = [] := by
        cases hh : trimR xs with
        | nil => rfl
        | cons a as => rw [hh] at hemp; simp at hemp
      have h1 : xs.filter nonSp = [] := by rw [← ih, hxs]; rfl
      simp [List.filter_cons, nonSp_space, h1]
    · simp [List.filter_cons, ih]

theorem filter_nonSp_pyJoinSplit (z : List Char) :
    (pyJoinSplitL z).filter nonSp = z.filter nonSp := by
  unfold pyJoinSplitL
  rw [filter_nonSp_trimL, filter_nonSp_trimR]
  show (crGo ' ' 2 1 (z.map toSp) 0).filter nonSp = z.filter nonSp
  rw [filter_nonSp_crGo_space, filter_nonSp_map_toSp]

/-- Counterexample to claim C10: the text `our newsletter` contains no
URL, no email address and no phone number (the three matchers match at
no position), yet the Noise Filter removes the boilerplate word
`newsletter`, a change that is not a whitespace change. -/
theorem c10_noise_filter_counterexample :
    scanAll (mkMatcher urlRx) none ("our newsletter".data) = true ∧
    scanAll (mkMatcher emailRx) none ("our newsletter".data) = true ∧
    scanAll (mkMatcher phoneRx) none ("our newsletter".data) = true ∧
    noiseFilterL ("our newsletter".data) = "our".data ∧
    (noiseFilterL ("our newsletter".data)).filter nonSp ≠
      ("our newsletter".data).filter nonSp := by
  refine ⟨by decide, by decide, by decide, by decide, by decide⟩

/-- Claim C10 as amended: for any text in which none of the fifteen
noise patterns (the twelve boilerplate patterns as well as the URL,
email and phone patterns) matches anywhere, the Noise Filter performs
exactly the whitespace normalisation `(' ').join(content.split())`, so
it changes only whitespace: the non-whitespace characters are preserved
in order. -/
theorem c10_noise_filter_whitespace_only (t : List Char)
    (h : noiseMatchers.all (fun m => scanAll m none t) = true) :
    noiseFilterL t = pyJoinSplitL t ∧
    (noiseFilterL t).filter nonSp = t.filter nonSp := by
  rw [List.all_eq_true] at h
  have hfold : noiseMatchers.foldl (fun acc m => reSub m acc) t = t :=
    foldl_reSub_id noiseMatchers t (fun m hm => h m hm)
  constructor
  · show pyJoinSplitL (noiseMatchers.foldl (fun acc m => reSub m acc) t) = pyJoinSplitL t
    rw [hfold]
  · show (pyJoinSplitL (noiseMatchers.foldl (fun acc m => reSub m acc) t)).filter nonSp =
      t.filter nonSp
    rw [hfold, filter_nonSp_pyJoinSplit]

/-- Witness for C10 as amended at a concrete input containing a run of
whitespace and no pattern occurrence. -/
theorem c10_noise_filter_whitespace_only_witness :
    (noiseMatchers.all (fun m => scanAll m none ("Hello cats".data)) = true) ∧
    (noiseFilterL ("Hello cats".data) = pyJoinSplitL ("Hello cats".data) ∧
      (noiseFilterL ("Hello cats".data)).filter nonSp = ("Hello cats".data).filter nonSp) :=
  ⟨by decide, c10_noise_filter_whitespace_only ("Hello cats".data) (by decide)⟩
